import Mathlib

/-!
# Verification of the kopia `cli` content-verify and guarded-action core

Shallow embedding of `cli/command_content_verify.go` (content verification
engine) and the guarded repository action framework from the same package
(`maybeRepositoryAction`, `maybeRunMaintenance`,
`directRepositoryReadAction`, `commandContentVerify.setup`).

Machine integers: `PackOffset` and `PackedLength` are Go `uint32` values, so
their Go sum wraps modulo 2^32; `blob.Metadata.Length` is Go `int64`,
modelled as `Int`.  External collaborators (blob lister, content iterator,
content getter, maintenance procedure, repository open/close) are modelled
as explicit inputs describing their outcomes, exactly at the interface the
Go code consumes.
-/

deriving instance DecidableEq for Except

/-- Modulus of Go `uint32` arithmetic. -/
def U32MOD : Nat := 2 ^ 32

/-- `blob.Metadata`: physical blob identity and its authoritative length
(`Length` is Go `int64`, hence `Int`). -/
structure BlobMetadata where
  blobID : String
  length : Int
deriving Repr, DecidableEq

/-- `content.Info` as consumed by `contentVerify`: stable content id,
backing pack blob id, byte range within the pack blob (`uint32` fields),
and the soft-delete marker. -/
structure ContentInfo where
  contentID : String
  packBlobID : String
  packOffset : Nat
  packedLength : Nat
  deleted : Bool
deriving Repr, DecidableEq

/-- The in-memory `blob_id -> metadata` map built by `readBlobMap`,
modelled as an association list where the head entry shadows later ones
(mirroring Go map insertion where the latest insert wins, because
`blobMapOf` prepends). -/
abbrev BlobMap := List (String × BlobMetadata)

/-- One per-record verification failure, mirroring the three
`errors.Errorf` / `errors.Wrapf` diagnoses of `contentVerify`. -/
inductive VerifyFailure where
  /-- full mode: `"content %v is invalid"` wrapping the fetch error -/
  | contentInvalid (contentID : String) : VerifyFailure
  /-- bounds mode: `"content %v depends on missing blob %v"` -/
  | missingBlob (contentID packBlobID : String) : VerifyFailure
  /-- bounds mode: `"content %v out of bounds of its pack blob %v"` -/
  | outOfBounds (contentID packBlobID : String) : VerifyFailure
deriving Repr, DecidableEq

/-- Flag state of the `content verify` command (`commandContentVerify`
struct in the source; the content-range flags are abstracted into the
record list the iterator yields). -/
structure commandContentVerify where
  contentVerifyParallel : Nat
  contentVerifyFull : Bool
  contentVerifyIncludeDeleted : Bool
deriving Repr, DecidableEq

/-- `(*commandContentVerify).contentVerify`: the per-record check.
`getContentOk cid = true` models `r.GetContent(ctx, cid)` succeeding.
In bounds mode the Go comparison is
`int64(ci.GetPackOffset()+ci.GetPackedLength()) > bi.Length`, a wrapping
`uint32` sum cast to `int64`, hence the `% U32MOD`. -/
def commandContentVerify.contentVerify (c : commandContentVerify)
    (getContentOk : String → Bool) (ci : ContentInfo) (blobMap : BlobMap) :
    Except VerifyFailure Unit :=
  if c.contentVerifyFull then
    if getContentOk ci.contentID then
      Except.ok ()
    else
      Except.error (VerifyFailure.contentInvalid ci.contentID)
  else
    match blobMap.lookup ci.packBlobID with
    | none => Except.error (VerifyFailure.missingBlob ci.contentID ci.packBlobID)
    | some bi =>
      if (((ci.packOffset + ci.packedLength) % U32MOD : Nat) : Int) > bi.length then
        Except.error (VerifyFailure.outOfBounds ci.contentID ci.packBlobID)
      else
        Except.ok ()

/-- Error results of `(*commandContentVerify).run`, mirroring its three
`return` error sites: the wrapped blob-listing error, the wrapped
`"iterate contents"` error, and the final `"encountered %v errors"`
aggregate (which carries nothing but the error count). -/
inductive RunError where
  | blobListing (cause : String) : RunError
  | iterateContents (cause : String) : RunError
  | aggregate (errorCount : Nat) : RunError
deriving Repr, DecidableEq

/-- The three counters of `run` (`totalCount`, `successCount`,
`errorCount`; `int32` atomics in the source, exact under any
interleaving because every update is an atomic increment). -/
structure VerifyCounters where
  totalCount : Nat
  successCount : Nat
  errorCount : Nat
deriving Repr, DecidableEq

/-- The map built by `readBlobMap`'s `ListBlobs` callback:
`blobMap[bm.BlobID] = bm` for each listed blob.  Prepending makes the most
recent insertion shadow older ones under `List.lookup`, matching Go map
assignment. -/
def blobMapOf (blobs : List BlobMetadata) : BlobMap :=
  blobs.foldl (fun m bm => (bm.blobID, bm) :: m) []

/-- `readBlobMap`: a successful listing yields the complete map; a listing
failure is returned (wrapped `"unable to list blobs"`) without a map. -/
def readBlobMap (listing : Except String (List BlobMetadata)) :
    Except String BlobMap :=
  match listing with
  | Except.error e => Except.error e
  | Except.ok blobs => Except.ok (blobMapOf blobs)

/-- The body of the `IterateContents` callback in `run`: verify one record,
bump `errorCount` or `successCount` accordingly, then bump `totalCount`. -/
def visitRecord (c : commandContentVerify) (getContentOk : String → Bool)
    (blobMap : BlobMap) (cnt : VerifyCounters) (ci : ContentInfo) :
    VerifyCounters :=
  match c.contentVerify getContentOk ci blobMap with
  | Except.ok _ =>
    ⟨cnt.totalCount + 1, cnt.successCount + 1, cnt.errorCount⟩
  | Except.error _ =>
    ⟨cnt.totalCount + 1, cnt.successCount, cnt.errorCount + 1⟩

/-- Counter state after the iteration visits `records` (exactly once each;
order is irrelevant to the totals since each visit is an increment). -/
def countersAfter (c : commandContentVerify) (getContentOk : String → Bool)
    (blobMap : BlobMap) (records : List ContentInfo) : VerifyCounters :=
  records.foldl (visitRecord c getContentOk blobMap) ⟨0, 0, 0⟩

/-- Observable outcome of one `run`: the blob map it built, the records the
iterator actually visited, the final counters, and the returned value. -/
structure RunResult where
  blobMap : BlobMap
  visited : List ContentInfo
  counters : VerifyCounters
  result : Except RunError Unit
deriving Repr, DecidableEq

/-- The iteration-and-report phase of `run` (everything after the blob map
is in hand): visit every yielded record, then either propagate the
iteration failure or report by error count.  `records` are the records the
iterator yields (already filtered by range / include-deleted), and
`iterationFailure` the error `IterateContents` itself returns, if any. -/
def runLoop (c : commandContentVerify) (blobMap : BlobMap)
    (records : List ContentInfo) (iterationFailure : Option String)
    (getContentOk : String → Bool) : RunResult :=
  let cnt := countersAfter c getContentOk blobMap records
  match iterationFailure with
  | some e => ⟨blobMap, records, cnt, Except.error (RunError.iterateContents e)⟩
  | none =>
    if cnt.errorCount = 0 then
      ⟨blobMap, records, cnt, Except.ok ()⟩
    else
      ⟨blobMap, records, cnt, Except.error (RunError.aggregate cnt.errorCount)⟩

/-- `(*commandContentVerify).run`: with the `full` flag the blob map stays
the empty initial map and listing is never consulted; otherwise the entire
blob store is listed first and a listing failure aborts before any record
is visited. -/
def commandContentVerify.run (c : commandContentVerify)
    (listing : Except String (List BlobMetadata))
    (records : List ContentInfo) (iterationFailure : Option String)
    (getContentOk : String → Bool) : RunResult :=
  if c.contentVerifyFull then
    runLoop c [] records iterationFailure getContentOk
  else
    match readBlobMap listing with
    | Except.error e =>
      ⟨[], [], ⟨0, 0, 0⟩, Except.error (RunError.blobListing e)⟩
    | Except.ok m => runLoop c m records iterationFailure getContentOk

/-- Outcome of the maintenance procedure run inside the write session of
`maybeRunMaintenance` (`snapshotmaintenance.Run` with `ModeAuto`,
non-forced, `SafetyFull`): success, a `maintenance.NotOwnedError` naming
the current owner, or any other failure. -/
inductive MaintResult where
  | ok : MaintResult
  | notOwned (owner : String) : MaintResult
  | failed (cause : String) : MaintResult
deriving Repr, DecidableEq

/-- Inputs deciding `maybeRunMaintenance`: the `--auto-maintenance` flag on
`App`, the handle's `ClientOptions().ReadOnly` bit, whether the handle's
dynamic type is `repo.DirectRepository`, and the maintenance procedure's
outcome when it is reached. -/
structure MaintenanceEnv where
  enableAutomaticMaintenance : Bool
  readOnly : Bool
  isDirectRepository : Bool
  runOutcome : MaintResult
deriving Repr, DecidableEq

/-- Observable outcome of `maybeRunMaintenance`: whether a write session
was opened (purpose `"maybeRunMaintenance"`), and the returned error —
`some cause` stands for the wrap `"error running maintenance"` around the
cause. -/
structure MaintenanceCall where
  sessionOpened : Bool
  result : Option String
deriving Repr, DecidableEq

/-- `(*App).maybeRunMaintenance`: three short-circuit no-op gates, then the
write session; a `NotOwnedError` from the procedure is deliberately not
reported (`return nil`), any other failure is wrapped and returned. -/
def maybeRunMaintenance (env : MaintenanceEnv) : MaintenanceCall :=
  if !env.enableAutomaticMaintenance then ⟨false, none⟩
  else if env.readOnly then ⟨false, none⟩
  else if !env.isDirectRepository then ⟨false, none⟩
  else
    match env.runOutcome with
    | MaintResult.ok => ⟨true, none⟩
    | MaintResult.notOwned _ => ⟨true, none⟩
    | MaintResult.failed e => ⟨true, some e⟩

/-- `repositoryAccessMode`: the two bits every guarded action is registered
with. -/
structure repositoryAccessMode where
  mustBeConnected : Bool
  disableMaintenance : Bool
deriving Repr, DecidableEq

/-- The overall error of one `maybeRepositoryAction` invocation (the value
logged as `ERROR:` before `os.Exit(1)` when non-nil), tagged by its
origin: the prometheus-initialization wrap, the `"open repository"` wrap,
the `"unable to close repository"` wrap, or the action's own error. -/
inductive CliError where
  | prometheusInit (cause : String) : CliError
  | openRepository (cause : String) : CliError
  | closeRepository (cause : String) : CliError
  | fromAction (cause : String) : CliError
deriving Repr, DecidableEq

/-- Inputs to one `maybeRepositoryAction` invocation: the App's metrics
address and the outcome of `initPrometheus`, the outcome of
`openRepository` (handle presence and error separately, as the code checks
them separately), the caller-supplied action's result as a function of
whether a handle exists, the maintenance environment, and `rep.Close`'s
outcome. -/
structure ActionEnv where
  metricsListenAddr : String
  prometheusInitFailure : Option String
  repOpened : Bool
  openFailure : Option String
  actionResult : Bool → Option String
  maint : MaintenanceEnv
  closeFailure : Option String

/-- Observable outcome of one `maybeRepositoryAction` invocation: which
steps ran, the maintenance error that was logged (never escalated), and
the overall result (`none` = success / exit 0). -/
structure FrameResult where
  actionRan : Bool
  maintenanceAttempted : Bool
  closeRan : Bool
  maintenanceLogged : Option String
  result : Option CliError
deriving Repr, DecidableEq

/-- `(*App).maybeRepositoryAction`: metrics init (fatal only if an address
is configured and `initPrometheus` fails), open (fatal only if
`mustBeConnected`), the action, best-effort maintenance (result only
logged), then close — a close failure is returned immediately, replacing
the captured action error, which is returned only when close succeeds or
is skipped. -/
def maybeRepositoryAction (mode : repositoryAccessMode) (env : ActionEnv) :
    FrameResult :=
  match (if env.metricsListenAddr = "" then none else env.prometheusInitFailure) with
  | some e => ⟨false, false, false, none, some (CliError.prometheusInit e)⟩
  | none =>
    match env.openFailure, mode.mustBeConnected with
    | some e, true => ⟨false, false, false, none, some (CliError.openRepository e)⟩
    | _, _ =>
      let actErr := env.actionResult env.repOpened
      let maintAttempted := env.repOpened && !mode.disableMaintenance
      let maintLogged :=
        if maintAttempted then (maybeRunMaintenance env.maint).result else none
      if env.repOpened && mode.mustBeConnected then
        match env.closeFailure with
        | some ce =>
          ⟨true, maintAttempted, true, maintLogged, some (CliError.closeRepository ce)⟩
        | none =>
          ⟨true, maintAttempted, true, maintLogged, actErr.map CliError.fromAction⟩
      else
        ⟨true, maintAttempted, false, maintLogged, actErr.map CliError.fromAction⟩

/-- The access mode `directRepositoryReadAction` registers its wrapped
action with (maintenance disabled, connection required). -/
def directRepositoryReadActionMode : repositoryAccessMode :=
  { mustBeConnected := true, disableMaintenance := true }

/-- `(*commandContentVerify).setup` registers the command action as
`svc.directRepositoryReadAction(c.run)`, so `content verify` executes
under the access mode of `directRepositoryReadAction`. -/
def contentVerifySetupMode : repositoryAccessMode := directRepositoryReadActionMode

-- quick sanity checks against the spec scenario (B1 length 1000; C1 ok,
-- C2 out of bounds, C3 missing blob)
example :
    commandContentVerify.contentVerify ⟨16, false, false⟩ (fun _ => true)
      ⟨"C1", "B1", 0, 500, false⟩ [("B1", ⟨"B1", 1000⟩)] = Except.ok () := by decide

example :
    commandContentVerify.contentVerify ⟨16, false, false⟩ (fun _ => true)
      ⟨"C2", "B1", 600, 500, false⟩ [("B1", ⟨"B1", 1000⟩)] =
      Except.error (VerifyFailure.outOfBounds "C2" "B1") := by decide

example :
    commandContentVerify.contentVerify ⟨16, false, false⟩ (fun _ => true)
      ⟨"C3", "B2", 0, 10, false⟩ [("B1", ⟨"B1", 1000⟩)] =
      Except.error (VerifyFailure.missingBlob "C3" "B2") := by decide

-- wrap check: offset 2^32-1, length 2 wraps to 1 and passes against length 10
example :
    commandContentVerify.contentVerify ⟨16, false, false⟩ (fun _ => true)
      ⟨"CW", "B1", 4294967295, 2, false⟩ [("B1", ⟨"B1", 10⟩)] = Except.ok () := by decide

/-! ## Helper lemmas -/

/-- In bounds mode, when the pack blob is present in the map the check is
exactly the (wrapping) range comparison. -/
lemma contentVerify_bounds_lookup (par : Nat) (incl : Bool)
    (getContentOk : String → Bool) (ci : ContentInfo) (m : BlobMap)
    (bi : BlobMetadata) (hlk : m.lookup ci.packBlobID = some bi) :
    commandContentVerify.contentVerify ⟨par, false, incl⟩ getContentOk ci m =
      if (((ci.packOffset + ci.packedLength) % U32MOD : Nat) : Int) > bi.length then
        Except.error (VerifyFailure.outOfBounds ci.contentID ci.packBlobID)
      else
        Except.ok () := by
  simp [commandContentVerify.contentVerify, hlk]

/-- Each visited record bumps `totalCount` by one and exactly one of
`successCount` / `errorCount` by one. -/
lemma visitRecord_step (c : commandContentVerify) (g : String → Bool)
    (m : BlobMap) (cnt : VerifyCounters) (ci : ContentInfo) :
    (visitRecord c g m cnt ci).totalCount = cnt.totalCount + 1 ∧
    (((visitRecord c g m cnt ci).successCount = cnt.successCount + 1 ∧
      (visitRecord c g m cnt ci).errorCount = cnt.errorCount) ∨
     ((visitRecord c g m cnt ci).successCount = cnt.successCount ∧
      (visitRecord c g m cnt ci).errorCount = cnt.errorCount + 1)) := by
  unfold visitRecord
  cases c.contentVerify g ci m with
  | ok v => simp
  | error e => simp

/-- Counter bookkeeping of the iteration fold, generalized over the initial
counter state. -/
lemma countersAfter_go (c : commandContentVerify) (g : String → Bool)
    (m : BlobMap) (records : List ContentInfo) (init : VerifyCounters) :
    (records.foldl (visitRecord c g m) init).totalCount
        = init.totalCount + records.length ∧
    (records.foldl (visitRecord c g m) init).successCount
        + (records.foldl (visitRecord c g m) init).errorCount
        = init.successCount + init.errorCount + records.length := by
  induction records generalizing init with
  | nil => simp
  | cons ci rest ih =>
    have hs := visitRecord_step c g m init ci
    have ht := ih (visitRecord c g m init ci)
    simp only [List.foldl_cons, List.length_cons]
    omega

/-- The blob map built by `readBlobMap` is exactly the listed blobs, keyed
by `blobID`, in reverse listing order (latest insertion first). -/
lemma blobMapOf_eq (blobs : List BlobMetadata) :
    blobMapOf blobs = (blobs.map fun bm => (bm.blobID, bm)).reverse := by
  suffices h : ∀ init : BlobMap, blobs.foldl (fun m bm => (bm.blobID, bm) :: m) init
      = (blobs.map fun bm => (bm.blobID, bm)).reverse ++ init by
    simpa [blobMapOf] using h []
  induction blobs with
  | nil => intro init; simp
  | cons b rest ih => intro init; simp [ih]

/-! ## Claim theorems -/

/-- C2 counterexample: the bounds check does NOT use an exact, non-wrapping
sum.  With `pack_offset = 2^32 - 1` and `packed_length = 2` the exact sum
`2^32 + 1` exceeds the blob's length `10`, and the blob is present in the
map, yet the per-record check succeeds, because the Go expression
`int64(ci.GetPackOffset()+ci.GetPackedLength())` wraps the `uint32` sum to
`1`. -/
theorem c2_exact_sum_counterexample :
    commandContentVerify.contentVerify ⟨16, false, false⟩ (fun _ => true)
        ⟨"CW", "B1", 4294967295, 2, false⟩ [("B1", ⟨"B1", 10⟩)] = Except.ok () ∧
    ([("B1", (⟨"B1", 10⟩ : BlobMetadata))] : BlobMap).lookup "B1" = some ⟨"B1", 10⟩ ∧
    4294967295 < U32MOD ∧ 2 < U32MOD ∧
    (4294967295 : Nat) + 2 > 10 := by
  refine ⟨by decide, by decide, by decide, by decide, by decide⟩

/-- C2 (amended): in bounds mode, for a record whose backing blob is in the
map, the check succeeds iff `(pack_offset + packed_length) mod 2^32` — the
wrapping `uint32` sum the code actually computes — is at most the blob's
length, and every record whose wrapped sum exceeds the blob's length is
reported as "out of bounds". -/
theorem c2_bounds_wrapped_sum (par : Nat) (incl : Bool)
    (getContentOk : String → Bool) (ci : ContentInfo) (m : BlobMap)
    (bi : BlobMetadata) (hlk : m.lookup ci.packBlobID = some bi) :
    (commandContentVerify.contentVerify ⟨par, false, incl⟩ getContentOk ci m =
        Except.ok () ↔
      (((ci.packOffset + ci.packedLength) % U32MOD : Nat) : Int) ≤ bi.length) ∧
    ((((ci.packOffset + ci.packedLength) % U32MOD : Nat) : Int) > bi.length →
      commandContentVerify.contentVerify ⟨par, false, incl⟩ getContentOk ci m =
        Except.error (VerifyFailure.outOfBounds ci.contentID ci.packBlobID)) := by
  rw [contentVerify_bounds_lookup par incl getContentOk ci m bi hlk]
  by_cases hgt : (((ci.packOffset + ci.packedLength) % U32MOD : Nat) : Int) > bi.length
  · rw [if_pos hgt]
    constructor
    · constructor
      · intro h; exact absurd h (by simp)
      · intro hle; omega
    · intro _; rfl
  · rw [if_neg hgt]
    push_neg at hgt
    constructor
    · exact iff_of_true rfl hgt
    · intro h2; exact absurd h2 (not_lt.mpr hgt)

/-- Witness for `c2_bounds_wrapped_sum` at the concrete record
`C2{blob=B1, offset=600, len=500}` against `B1{length=1000}`. -/
theorem c2_bounds_wrapped_sum_witness :
    (commandContentVerify.contentVerify ⟨16, false, false⟩ (fun _ => true)
        ⟨"C2", "B1", 600, 500, false⟩ [("B1", ⟨"B1", 1000⟩)] = Except.ok () ↔
      (((600 + 500) % U32MOD : Nat) : Int) ≤ (1000 : Int)) ∧
    ((((600 + 500) % U32MOD : Nat) : Int) > (1000 : Int) →
      commandContentVerify.contentVerify ⟨16, false, false⟩ (fun _ => true)
        ⟨"C2", "B1", 600, 500, false⟩ [("B1", ⟨"B1", 1000⟩)] =
        Except.error (VerifyFailure.outOfBounds "C2" "B1")) :=
  c2_bounds_wrapped_sum 16 false (fun _ => true) ⟨"C2", "B1", 600, 500, false⟩
    [("B1", ⟨"B1", 1000⟩)] ⟨"B1", 1000⟩ (by decide)

/-- C3: in bounds mode, a record whose `pack_blob_id` is absent from the
blob map fails with exactly the "missing blob" diagnosis — never "out of
bounds" — whatever its offset and length are (the lookup is decided before
any bounds arithmetic). -/
theorem c3_missing_blob (par : Nat) (incl : Bool)
    (getContentOk : String → Bool) (ci : ContentInfo) (m : BlobMap)
    (hlk : m.lookup ci.packBlobID = none) :
    commandContentVerify.contentVerify ⟨par, false, incl⟩ getContentOk ci m =
      Except.error (VerifyFailure.missingBlob ci.contentID ci.packBlobID) := by
  simp [commandContentVerify.contentVerify, hlk]

/-- Witness for `c3_missing_blob`: record `C3{blob=B2, offset=0, len=10}`
with only `B1` in the blob map; note the range `0..10` would be in bounds,
yet the diagnosis is "missing blob". -/
theorem c3_missing_blob_witness :
    commandContentVerify.contentVerify ⟨16, false, false⟩ (fun _ => true)
      ⟨"C3", "B2", 0, 10, false⟩ [("B1", ⟨"B1", 1000⟩)] =
      Except.error (VerifyFailure.missingBlob "C3" "B2") :=
  c3_missing_blob 16 false (fun _ => true) ⟨"C3", "B2", 0, 10, false⟩
    [("B1", ⟨"B1", 1000⟩)] (by decide)

/-- Structural fields of `runLoop`: the blob map and visited records pass
through unchanged, and the counters are the iteration fold. -/
lemma runLoop_fields (c : commandContentVerify) (m : BlobMap)
    (records : List ContentInfo) (itf : Option String) (g : String → Bool) :
    (runLoop c m records itf g).blobMap = m ∧
    (runLoop c m records itf g).visited = records ∧
    (runLoop c m records itf g).counters = countersAfter c g m records := by
  cases itf with
  | some e => exact ⟨rfl, rfl, rfl⟩
  | none =>
    simp only [runLoop]
    split <;> exact ⟨rfl, rfl, rfl⟩

/-- Result of `runLoop` when iteration succeeded: decided purely by the
final error counter. -/
lemma runLoop_none_result (c : commandContentVerify) (m : BlobMap)
    (records : List ContentInfo) (g : String → Bool) :
    (runLoop c m records none g).result =
      if (countersAfter c g m records).errorCount = 0 then Except.ok ()
      else Except.error (RunError.aggregate (countersAfter c g m records).errorCount) := by
  simp only [runLoop]
  split <;> rfl

/-- C4: whenever `run` reaches the final report (`IterateContents` returned
no error), the counters satisfy `total = success + error` and `total`
equals the number of visited records; each visited record increments
`total` exactly once and exactly one of `success` / `error` exactly once;
and the value of the parallelism flag never changes the outcome. -/
theorem c4_counter_invariant (c : commandContentVerify)
    (listing : Except String (List BlobMetadata)) (records : List ContentInfo)
    (g : String → Bool) :
    ((c.run listing records none g).counters.totalCount =
        (c.run listing records none g).counters.successCount +
          (c.run listing records none g).counters.errorCount) ∧
    ((c.run listing records none g).counters.totalCount =
        (c.run listing records none g).visited.length) ∧
    (∀ (m : BlobMap) (cnt : VerifyCounters) (ci : ContentInfo),
      (visitRecord c g m cnt ci).totalCount = cnt.totalCount + 1 ∧
      (((visitRecord c g m cnt ci).successCount = cnt.successCount + 1 ∧
        (visitRecord c g m cnt ci).errorCount = cnt.errorCount) ∨
       ((visitRecord c g m cnt ci).successCount = cnt.successCount ∧
        (visitRecord c g m cnt ci).errorCount = cnt.errorCount + 1))) ∧
    (∀ (p q : Nat) (full incl : Bool) (itf : Option String),
      commandContentVerify.run ⟨p, full, incl⟩ listing records itf g =
        commandContentVerify.run ⟨q, full, incl⟩ listing records itf g) := by
  have hmain : ∀ m : BlobMap,
      (runLoop c m records none g).counters.totalCount =
        (runLoop c m records none g).counters.successCount +
          (runLoop c m records none g).counters.errorCount ∧
      (runLoop c m records none g).counters.totalCount =
        (runLoop c m records none g).visited.length := by
    intro m
    obtain ⟨_, hv, hc⟩ := runLoop_fields c m records none g
    obtain ⟨ht, hse⟩ := countersAfter_go c g m records ⟨0, 0, 0⟩
    rw [hv, hc]
    unfold countersAfter
    dsimp only at ht hse
    constructor <;> omega
  refine ⟨?_, ?_, fun m cnt ci => visitRecord_step c g m cnt ci, fun p q full incl itf => rfl⟩
  all_goals {
    unfold commandContentVerify.run
    by_cases hf : c.contentVerifyFull = true
    · rw [if_pos hf]
      first
      | exact (hmain []).1
      | exact (hmain []).2
    · rw [if_neg hf]
      cases listing with
      | error e => simp [readBlobMap]
      | ok blobs =>
        simp only [readBlobMap]
        first
        | exact (hmain (blobMapOf blobs)).1
        | exact (hmain (blobMapOf blobs)).2
  }

/-- C5: when the iteration completes over all selected records (listing
succeeded, no iteration failure), the run succeeds iff the error counter
is zero; otherwise the only possible result is the aggregate error
carrying exactly the final error count (the `aggregate` variant carries
nothing else). -/
theorem c5_completion_report (c : commandContentVerify)
    (blobs : List BlobMetadata) (records : List ContentInfo)
    (g : String → Bool) :
    ((c.run (Except.ok blobs) records none g).result = Except.ok () ↔
      (c.run (Except.ok blobs) records none g).counters.errorCount = 0) ∧
    ((c.run (Except.ok blobs) records none g).result = Except.ok () ∨
      (c.run (Except.ok blobs) records none g).result =
        Except.error (RunError.aggregate
          (c.run (Except.ok blobs) records none g).counters.errorCount)) := by
  have hloop : ∀ m : BlobMap,
      ((runLoop c m records none g).result = Except.ok () ↔
        (runLoop c m records none g).counters.errorCount = 0) ∧
      ((runLoop c m records none g).result = Except.ok () ∨
        (runLoop c m records none g).result =
          Except.error (RunError.aggregate
            (runLoop c m records none g).counters.errorCount)) := by
    intro m
    obtain ⟨_, _, hc⟩ := runLoop_fields c m records none g
    rw [runLoop_none_result, hc]
    by_cases hz : (countersAfter c g m records).errorCount = 0
    · rw [if_pos hz]
      exact ⟨iff_of_true rfl hz, Or.inl rfl⟩
    · rw [if_neg hz]
      refine ⟨⟨fun h => absurd h (by simp), fun h => absurd h hz⟩, Or.inr rfl⟩
  unfold commandContentVerify.run
  by_cases hf : c.contentVerifyFull = true
  · rw [if_pos hf]; exact hloop []
  · rw [if_neg hf]; simp only [readBlobMap]; exact hloop (blobMapOf blobs)

/-- C6: with `full = false`, a blob-listing failure makes the whole run
abort with the wrapped listing error before any record is visited and with
all counters at zero; a successful listing is loaded, in its entirety, into
the blob map before iteration.  With `full = true`, the listing is never
consulted and the blob map stays empty. -/
theorem c6_blob_map_phase (par : Nat) (incl : Bool) (e : String)
    (records : List ContentInfo) (itf : Option String) (g : String → Bool) :
    (commandContentVerify.run ⟨par, false, incl⟩ (Except.error e) records itf g =
      ⟨[], [], ⟨0, 0, 0⟩, Except.error (RunError.blobListing e)⟩) ∧
    (∀ blobs : List BlobMetadata,
      (commandContentVerify.run ⟨par, false, incl⟩ (Except.ok blobs) records itf g).blobMap =
        (blobs.map fun bm => (bm.blobID, bm)).reverse) ∧
    (∀ l1 l2 : Except String (List BlobMetadata),
      commandContentVerify.run ⟨par, true, incl⟩ l1 records itf g =
        commandContentVerify.run ⟨par, true, incl⟩ l2 records itf g) ∧
    (∀ listing : Except String (List BlobMetadata),
      (commandContentVerify.run ⟨par, true, incl⟩ listing records itf g).blobMap = []) := by
  refine ⟨rfl, ?_, fun l1 l2 => rfl, ?_⟩
  · intro blobs
    rw [← blobMapOf_eq]
    exact (runLoop_fields ⟨par, false, incl⟩ (blobMapOf blobs) records itf g).1
  · intro listing
    exact (runLoop_fields ⟨par, true, incl⟩ [] records itf g).1

/-- C7: `maybeRunMaintenance` is a successful no-op (no write session)
whenever automatic maintenance is disabled, the handle is read-only, or the
handle is not a direct repository; and when maintenance does run and the
procedure fails with `NotOwnedError`, the error is suppressed and the call
still returns success. -/
theorem c7_maybeRunMaintenance_gates (en ro dir : Bool) (res : MaintResult)
    (owner : String) :
    (maybeRunMaintenance ⟨false, ro, dir, res⟩ = ⟨false, none⟩) ∧
    (maybeRunMaintenance ⟨en, true, dir, res⟩ = ⟨false, none⟩) ∧
    (maybeRunMaintenance ⟨en, ro, false, res⟩ = ⟨false, none⟩) ∧
    (maybeRunMaintenance ⟨true, false, true, MaintResult.notOwned owner⟩ =
      ⟨true, none⟩) := by
  refine ⟨rfl, ?_, ?_, rfl⟩
  · cases en <;> rfl
  · cases en <;> cases ro <;> rfl

/-- C8: with a repository handle present and `disableMaintenance` false,
maintenance is attempted after the action no matter what the action
returned; its result is recorded in the log only — the overall result is
the same whatever the maintenance environment is, so a maintenance failure
is never the returned error. -/
theorem c8_maintenance_best_effort (mbc : Bool) (a : Bool → Option String)
    (m m2 : MaintenanceEnv) (cf : Option String) :
    ((maybeRepositoryAction ⟨mbc, false⟩
        ⟨"", none, true, none, a, m, cf⟩).maintenanceAttempted = true) ∧
    ((maybeRepositoryAction ⟨mbc, false⟩
        ⟨"", none, true, none, a, m, cf⟩).maintenanceLogged =
      (maybeRunMaintenance m).result) ∧
    ((maybeRepositoryAction ⟨mbc, false⟩ ⟨"", none, true, none, a, m, cf⟩).result =
      (maybeRepositoryAction ⟨mbc, false⟩ ⟨"", none, true, none, a, m2, cf⟩).result) := by
  cases mbc <;> cases cf <;>
    simp [maybeRepositoryAction]

/-- C10: `content verify` is registered through
`directRepositoryReadAction`, whose access mode disables maintenance and
requires a connection; under that mode `maybeRepositoryAction` never
attempts maintenance, whatever the environment (writable direct repository
with automatic maintenance enabled included). -/
theorem c10_content_verify_no_maintenance :
    contentVerifySetupMode = directRepositoryReadActionMode ∧
    contentVerifySetupMode.disableMaintenance = true ∧
    contentVerifySetupMode.mustBeConnected = true ∧
    (∀ env : ActionEnv,
      (maybeRepositoryAction contentVerifySetupMode env).maintenanceAttempted = false ∧
      (maybeRepositoryAction contentVerifySetupMode env).maintenanceLogged = none) := by
  refine ⟨rfl, rfl, rfl, ?_⟩
  intro env
  unfold maybeRepositoryAction
  split
  · exact ⟨rfl, rfl⟩
  · split
    · exact ⟨rfl, rfl⟩
    · simp only [contentVerifySetupMode, directRepositoryReadActionMode,
        Bool.not_true, Bool.and_false]
      constructor <;> split <;> first | rfl | (split <;> rfl)

/-- C9: in full mode the verdict is success exactly when the fetch of the
record's bytes succeeds; a record whose fetch fails is diagnosed "content
invalid" and counted as an error even when the same record passes the
bounds check. -/
theorem c9_full_mode_stricter (par : Nat) (incl : Bool)
    (g : String → Bool) (ci : ContentInfo) (m : BlobMap) :
    (commandContentVerify.contentVerify ⟨par, true, incl⟩ g ci m = Except.ok () ↔
      g ci.contentID = true) ∧
    (commandContentVerify.contentVerify ⟨par, false, incl⟩ g ci m = Except.ok () →
      g ci.contentID = false →
      commandContentVerify.contentVerify ⟨par, true, incl⟩ g ci m =
        Except.error (VerifyFailure.contentInvalid ci.contentID)) ∧
    (∀ cnt : VerifyCounters, g ci.contentID = false →
      (visitRecord ⟨par, true, incl⟩ g m cnt ci).errorCount = cnt.errorCount + 1) := by
  refine ⟨?_, ?_, ?_⟩
  · cases hg : g ci.contentID <;> simp [commandContentVerify.contentVerify, hg]
  · intro _ hg
    simp [commandContentVerify.contentVerify, hg]
  · intro cnt hg
    simp [visitRecord, commandContentVerify.contentVerify, hg]

/-- Witness for `c9_full_mode_stricter` at the record
`C1{blob=B1, offset=0, len=500}` against `B1{length=1000}` and a fetch that
always fails: bounds mode succeeds, full mode reports "content invalid"
and bumps the error counter. -/
theorem c9_full_mode_stricter_witness :
    commandContentVerify.contentVerify ⟨16, false, false⟩ (fun _ => false)
      ⟨"C1", "B1", 0, 500, false⟩ [("B1", ⟨"B1", 1000⟩)] = Except.ok () ∧
    commandContentVerify.contentVerify ⟨16, true, false⟩ (fun _ => false)
      ⟨"C1", "B1", 0, 500, false⟩ [("B1", ⟨"B1", 1000⟩)] =
      Except.error (VerifyFailure.contentInvalid "C1") ∧
    (visitRecord ⟨16, true, false⟩ (fun _ => false) [("B1", ⟨"B1", 1000⟩)]
      ⟨0, 0, 0⟩ ⟨"C1", "B1", 0, 500, false⟩).errorCount = 0 + 1 :=
  ⟨by decide,
   (c9_full_mode_stricter 16 false (fun _ => false) ⟨"C1", "B1", 0, 500, false⟩
      [("B1", ⟨"B1", 1000⟩)]).2.1 (by decide) rfl,
   (c9_full_mode_stricter 16 false (fun _ => false) ⟨"C1", "B1", 0, 500, false⟩
      [("B1", ⟨"B1", 1000⟩)]).2.2 ⟨0, 0, 0⟩ rfl⟩

/-- Environment in which both the caller-supplied action and the repository
close fail (repository open, metrics disabled, maintenance environment
arbitrary but fixed). -/
def bothFailEnv : ActionEnv :=
  ⟨"", none, true, none, fun _ => some "action failed",
   ⟨false, false, false, MaintResult.ok⟩, some "close failed"⟩

/-- C1 counterexample: when both the action and the close fail, the overall
error returned (and logged before the non-zero exit) is the close error,
not the action's error — `maybeRepositoryAction` returns the wrapped close
error immediately, discarding the captured action error. -/
theorem c1_action_precedence_counterexample :
    (maybeRepositoryAction ⟨true, true⟩ bothFailEnv).result =
      some (CliError.closeRepository "close failed") ∧
    (maybeRepositoryAction ⟨true, true⟩ bothFailEnv).result ≠
      some (CliError.fromAction "action failed") := by
  exact ⟨rfl, by decide⟩

/-- C1 (amended): a close failure is escalated as the overall error even
when the action itself already failed — the close error takes precedence;
the action's error is the overall error only when the close succeeds (the
close always runs here since a handle exists and connection was
required). -/
theorem c1_close_error_precedence (dm : Bool) (a : Bool → Option String)
    (m : MaintenanceEnv) (ce : String) :
    ((maybeRepositoryAction ⟨true, dm⟩
        ⟨"", none, true, none, a, m, some ce⟩).result =
      some (CliError.closeRepository ce)) ∧
    ((maybeRepositoryAction ⟨true, dm⟩
        ⟨"", none, true, none, a, m, none⟩).result =
      (a true).map CliError.fromAction) := by
  cases dm <;> simp [maybeRepositoryAction]
